import Mathlib

/- Shallow embedding of the yota form library core: src/yota/nodes.py
(field descriptors) and src/yota/validators.py (Check / Listener binding
wrappers). Python objects are modelled as explicit data; attribute access
is modelled through association lists; raised exceptions become the error
side of Except. -/

set_option autoImplicit false

/-- Python attribute values, as far as the verified claims inspect them:
strings (names, ids, titles, submitted data), integers, and a none value.
Error records and global rendering contexts are treated as opaque values
of this type. -/
inductive PyVal where
  | str : String → PyVal
  | intVal : Int → PyVal
  | noneVal : PyVal
  deriving DecidableEq, Repr

/-- The exceptions the embedded code can raise. `valueError` is the
InvariantViolation raised by unresolved bindings, `formDataAccess` is
FormDataAccessException, `invalidContext` is InvalidContextException
carrying the missing key, `notCallable` is NotCallableException carrying
the message of the original cause, and `typeError` / `otherExc` stand for
arbitrary exceptions a validator body may raise. -/
inductive PyExc where
  | valueError : String → PyExc
  | attributeError : PyExc
  | formDataAccess : PyExc
  | invalidContext : String → PyExc
  | notCallable : String → PyExc
  | typeError : String → PyExc
  | otherExc : String → PyExc
  deriving DecidableEq, Repr

instance exceptDecEq {ε α : Type} [DecidableEq ε] [DecidableEq α] :
    DecidableEq (Except ε α)
  | .error e1, .error e2 =>
      if h : e1 = e2 then isTrue (by rw [h])
      else isFalse (fun hh => h (Except.error.inj hh))
  | .error _, .ok _ => isFalse (fun hh => Except.noConfusion hh)
  | .ok _, .error _ => isFalse (fun hh => Except.noConfusion hh)
  | .ok a1, .ok a2 =>
      if h : a1 = a2 then isTrue (by rw [h])
      else isFalse (fun hh => h (Except.ok.inj hh))

/-- First-match lookup in an association list, the model of Python
dictionary / attribute lookup. -/
def alookup : List (String × PyVal) → String → Option PyVal
  | [], _ => none
  | p :: rest, k => if p.1 = k then some p.2 else alookup rest k

/-- Python dictionary assignment `d[k] = v` / attribute assignment:
replace the value at an existing key, otherwise append the pair at the
end. -/
def ainsert (l : List (String × PyVal)) (k : String) (v : PyVal) :
    List (String × PyVal) :=
  if l.any (fun p => p.1 == k) then
    l.map (fun p => if p.1 = k then (k, v) else p)
  else l ++ [(k, v)]

/-- The model of a `Node` (src/yota/nodes.py, class Node). `attrName` is
`_attr_name`; `attrs` is the effective attribute mapping the instance
exposes (instance attributes over class attributes, as `dir` and
`hasattr` see them); `ignores` is `_ignores`; `requires` is `_requires`;
`listNames` is the list of names returned by `get_list_names` (see
`Node.get_list_names` below). -/
structure Node where
  attrName : String
  attrs : List (String × PyVal)
  ignores : List String
  requires : List String
  listNames : List String
  deriving DecidableEq, Repr

/-- `getattr(self, k)` as an Option, on the effective attribute map. -/
def Node.getAttr? (n : Node) (k : String) : Option PyVal :=
  alookup n.attrs k

/-- `hasattr(self, k)`. -/
def Node.hasAttr (n : Node) (k : String) : Bool :=
  (alookup n.attrs k).isSome

/-- `setattr(self, k, v)` / `self.k = v`. -/
def Node.setAttr (n : Node) (k : String) (v : PyVal) : Node :=
  { n with attrs := ainsert n.attrs k v }

/-- `delattr(self, k)`: the attribute disappears from the effective map. -/
def Node.delAttr (n : Node) (k : String) : Node :=
  { n with attrs := n.attrs.filter (fun p => !(decide (p.1 = k))) }

/-- Python `str.capitalize`: first character uppercased, the rest
lowercased. -/
def pyCapitalize (s : String) : String :=
  match s.data with
  | [] => ""
  | c :: cs => String.mk (c.toUpper :: cs.map Char.toLower)

/-- `Node.set_identifiers (nodes.py 68-89)`: derive `id` as
`parent_name + "_" + _attr_name`, `name` as `_attr_name` and `title` as
`_attr_name` capitalized, each only when the attribute is not already
present (explicit construction-time values always win). -/
def Node.set_identifiers (n : Node) (parent_name : String) : Node :=
  let n1 := if n.hasAttr "id" then n
            else n.setAttr "id" (.str (parent_name ++ "_" ++ n.attrName))
  let n2 := if n1.hasAttr "name" then n1
            else n1.setAttr "name" (.str n.attrName)
  if n2.hasAttr "title" then n2
  else n2.setAttr "title" (.str (pyCapitalize n.attrName))

/-- `Node.resolve_data (nodes.py 91-100)`: `self.data = data[self.name]`
inside a bare try/except that re-raises every failure as
FormDataAccessException. A missing `name` attribute, a non-string `name`
and a missing submission key therefore all collapse to the same error. -/
def Node.resolve_data (n : Node) (data : List (String × PyVal)) :
    Except PyExc Node :=
  match n.getAttr? "name" with
  | some (.str nm) =>
      match alookup data nm with
      | some v => .ok (n.setAttr "data" v)
      | none => .error .formDataAccess
  | _ => .error .formDataAccess

/-- Python `s.startswith("_")`: since the marker is the single character
underscore, this is exactly the test that the first character is an
underscore. -/
def underscoreMarked (s : String) : Bool :=
  match s.data with
  | [] => false
  | c :: _ => c == '_'

/-- The dictionary comprehension of `Node.get_context (nodes.py 110)`:
every attribute whose name does not start with the underscore marker and
is not listed in `_ignores`. -/
def Node.harvest (n : Node) : List (String × PyVal) :=
  n.attrs.filter (fun p => !underscoreMarked p.1 && !(decide (p.1 ∈ n.ignores)))

/-- `Node.get_context (nodes.py 102-117)`: harvest the public attributes,
raise InvalidContextException at the first `_requires` entry missing from
the harvested mapping, then inject the global context under the reserved
key `g`. -/
def Node.get_context (n : Node) (g_context : PyVal) :
    Except PyExc (List (String × PyVal)) :=
  match n.requires.find? (fun r => (alookup n.harvest r).isNone) with
  | some r => .error (.invalidContext r)
  | none => .ok (ainsert n.harvest "g" g_context)

/-- `LeaderNode.set_identifiers (nodes.py 158-160)`: run the base
`set_identifiers`, then `delattr(self, "title")`. -/
def LeaderNode.set_identifiers (n : Node) (parent_name : String) : Node :=
  (Node.set_identifiers n parent_name).delAttr "title"

/-- Modelled from the spec: `get_list_names` is called by
`Check.node_visited` but its definition is not among the sources; per the
spec each field exposes the set of names it should be matched against,
ordinarily just its own name, but composite fields may expose several.
The model keeps that exposed name list as the `listNames` field. -/
def Node.get_list_names (n : Node) : List String :=
  n.listNames

/- ---- Aliasing model for the class-level `errors` list ---- -/

/-- Heap of Python list objects, for the `errors` aliasing analysis:
`Node.errors = []` (nodes.py 44) is a single list object stored on the
class, shared by every instance that has no instance-level `errors`
attribute. Cell 0 of the heap is that class-level list. -/
structure ErrState where
  heap : List (List PyVal)
  deriving DecidableEq, Repr

/-- Heap index of the class attribute `Node.errors`. -/
def nodeClassErrorsCell : Nat := 0

/-- A node as the `errors` machinery sees it: `oid` is the object
identity distinguishing two field instances, `instErrors` is the heap
reference held by an instance-level `errors` attribute, or `none` when
the instance has no such attribute and lookup falls back to the class
attribute. -/
structure ENode where
  oid : Nat
  instErrors : Option Nat
  deriving DecidableEq, Repr

/-- The heap cell `self.errors` resolves to: the instance attribute if
present, else the shared class cell. -/
def ENode.errCell (n : ENode) : Nat :=
  n.instErrors.getD nodeClassErrorsCell

/-- Reading `self.errors`. -/
def ENode.errors (st : ErrState) (n : ENode) : List PyVal :=
  st.heap.getD n.errCell []

/-- `Node.add_error (nodes.py 60-66)`: `self.errors.append(error)` —
append the record at the end of whatever list object `self.errors`
resolves to. -/
def ENode.add_error (st : ErrState) (n : ENode) (error : PyVal) : ErrState :=
  ⟨st.heap.set n.errCell (st.heap.getD n.errCell [] ++ [error])⟩

/- ---- Binding wrappers (src/yota/validators.py) ---- -/

/-- An entry of `self.args` / `self.kwargs` of an ActionWrapper: before
resolution a field-name string, after resolution a Node object. -/
inductive Arg where
  | name : String → Arg
  | node : Node → Arg
  deriving DecidableEq, Repr

/-- Whether an argument slot holds a resolved Node object. -/
def Arg.isNode : Arg → Bool
  | .name _ => false
  | .node _ => true

/-- The exposed name list of an argument slot, empty for an unresolved
string. -/
def Arg.names : Arg → List String
  | .name _ => []
  | .node n => n.get_list_names

/-- The outcome of evaluating `self.callable(*args, **kwargs)`. The model
distinguishes where a TypeError originates — `invokeFail` is the call
machinery itself failing (arity or type mismatch, surfacing as a
TypeError), `bodyRaise e` is the validator body raising `e` — although
the Python `except TypeError` in `ActionWrapper.__call__` cannot see
that distinction. -/
inductive CallOutcome where
  | ok : PyVal → CallOutcome
  | invokeFail : String → CallOutcome
  | bodyRaise : PyExc → CallOutcome

/-- `ActionWrapper (validators.py 344-401)`: the wrapped callable, the
positional and keyword name references, and the monotonic `resolved`
flag. `Check` and `Listener` both share exactly this state and these
operations; the Listener event-type tag plays no role in the verified
claims. -/
structure ActionWrapper where
  callable : List Arg → List (String × Arg) → CallOutcome
  args : List Arg
  kwargs : List (String × Arg)
  resolved : Bool

/-- `ActionWrapper.__init__ (validators.py 350-363)`: store the callable
and references, `resolved` starts false. -/
def mkActionWrapper (c : List Arg → List (String × Arg) → CallOutcome)
    (args : List Arg) (kwargs : List (String × Arg)) : ActionWrapper :=
  ⟨c, args, kwargs, false⟩

/-- One step of resolution, `form.get_by_attr(arg)`. The registry
(spec section 6, field-registry protocol) maps a field name to a live
Node or fails with a distinct lookup error; handing it a non-name raises
a TypeError. `get_by_attr` itself lives in the excluded Form
collaborator, so the registry is taken as a parameter. -/
def resolveArg (form : String → Except PyExc Node) : Arg → Except PyExc Arg
  | .name s =>
      match form s with
      | .ok n => .ok (.node n)
      | .error e => .error e
  | .node _ => .error (.typeError "attribute name must be string")

/-- Resolve every positional slot in order, as the loop at
validators.py 378-379 does; a lookup failure propagates. -/
def resolveArgs (form : String → Except PyExc Node) :
    List Arg → Except PyExc (List Arg)
  | [] => .ok []
  | a :: rest =>
      match resolveArg form a with
      | .error e => .error e
      | .ok r =>
          match resolveArgs form rest with
          | .error e => .error e
          | .ok rs => .ok (r :: rs)

/-- Resolve every keyword slot, as the loop at validators.py 382-383. -/
def resolveKwargs (form : String → Except PyExc Node) :
    List (String × Arg) → Except PyExc (List (String × Arg))
  | [] => .ok []
  | p :: rest =>
      match resolveArg form p.2 with
      | .error e => .error e
      | .ok r =>
          match resolveKwargs form rest with
          | .error e => .error e
          | .ok rs => .ok ((p.1, r) :: rs)

/-- `ActionWrapper.resolve_attr_names (validators.py 365-385)`: if
already resolved, return immediately; otherwise replace every positional
and keyword reference through the registry and set `resolved`. -/
def ActionWrapper.resolve_attr_names (w : ActionWrapper)
    (form : String → Except PyExc Node) : Except PyExc ActionWrapper :=
  if w.resolved then .ok w
  else
    match resolveArgs form w.args with
    | .error e => .error e
    | .ok args =>
        match resolveKwargs form w.kwargs with
        | .error e => .error e
        | .ok kwargs => .ok { w with args := args, kwargs := kwargs, resolved := true }

/-- The InvariantViolation message of validators.py 393 and 429. -/
def unresolvedMsg : String :=
  "Check args are not resolved. This should not happen"

/-- The try/except around `self.callable(*self.args, **self.kwargs)`
(validators.py 395-401): a TypeError escaping the call — whether the
invocation failed or the body raised it — is re-raised as
NotCallableException carrying the original cause; every other exception
propagates unchanged. -/
def runActionCallable (c : List Arg → List (String × Arg) → CallOutcome)
    (args : List Arg) (kwargs : List (String × Arg)) : Except PyExc PyVal :=
  match c args kwargs with
  | .ok v => .ok v
  | .invokeFail m => .error (.notCallable m)
  | .bodyRaise (.typeError m) => .error (.notCallable m)
  | .bodyRaise e => .error e

/-- `ActionWrapper.__call__ (validators.py 387-401)`: raise the
InvariantViolation ValueError when not resolved, otherwise run the
wrapped callable under the TypeError-wrapping handler. -/
def ActionWrapper.call (w : ActionWrapper) : Except PyExc PyVal :=
  if w.resolved then runActionCallable w.callable w.args w.kwargs
  else .error (.valueError unresolvedMsg)

/-- The inner for/else of `Check.node_visited` on one slot: does at
least one exposed name of the node appear in `visited`? A slot still
holding a raw string has no `get_list_names` and raises AttributeError. -/
def argVisited (a : Arg) (visited : List String) : Except PyExc Bool :=
  match a with
  | .name _ => .error .attributeError
  | .node n => .ok (n.get_list_names.any (fun s => decide (s ∈ visited)))

/-- The outer loop of `Check.node_visited` over a list of slots: false as
soon as one slot has no exposed name in `visited`, true when all pass. -/
def allVisited (l : List Arg) (visited : List String) : Except PyExc Bool :=
  match l with
  | [] => .ok true
  | a :: rest =>
      match argVisited a visited with
      | .error e => .error e
      | .ok true => allVisited rest visited
      | .ok false => .ok false

/-- `Check.node_visited (validators.py 423-449)`: raise the
InvariantViolation ValueError when not resolved; otherwise every
positional node and then every keyword node must have at least one of
its exposed names in `visited`. -/
def Check.node_visited (w : ActionWrapper) (visited : List String) :
    Except PyExc Bool :=
  if w.resolved then
    match allVisited w.args visited with
    | .error e => .error e
    | .ok false => .ok false
    | .ok true => allVisited (w.kwargs.map Prod.snd) visited
  else .error (.valueError unresolvedMsg)

/- ---- Concrete fixtures used by witnesses ---- -/

/-- A trivially succeeding validator callable. -/
def exCallable : List Arg → List (String × Arg) → CallOutcome :=
  fun _ _ => .ok PyVal.noneVal

/-- A field whose exposed name list is just its own name `a`. -/
def exNodeA : Node := ⟨"a", [], [], [], ["a"]⟩

/-- A field whose exposed name list is just its own name `b`. -/
def exNodeB : Node := ⟨"b", [], [], [], ["b"]⟩

/-- A registry that knows only the field name `a`. -/
def exForm : String → Except PyExc Node :=
  fun s => if s = "a" then .ok exNodeA else .error .attributeError

/-- A resolved two-field Check fixture. -/
def exCheckResolved : ActionWrapper :=
  ⟨exCallable, [Arg.node exNodeA], [("k", Arg.node exNodeB)], true⟩

/- ---- Helper lemmas about association lists ---- -/

theorem alookup_map_set_self (k : String) (v : PyVal) (l : List (String × PyVal))
    (h : l.any (fun p => p.1 == k) = true) :
    alookup (l.map (fun p => if p.1 = k then (k, v) else p)) k = some v := by
  induction l with
  | nil => simp at h
  | cons p rest ih =>
    by_cases hp : p.1 = k
    · simp [alookup, hp]
    · have hr : rest.any (fun p => p.1 == k) = true := by
        simp only [List.any_cons, Bool.or_eq_true, beq_iff_eq] at h
        exact h.resolve_left hp
      simpa [alookup, hp] using ih hr

theorem alookup_append_single_self (k : String) (v : PyVal) (l : List (String × PyVal))
    (h : l.any (fun p => p.1 == k) = false) :
    alookup (l ++ [(k, v)]) k = some v := by
  induction l with
  | nil => simp [alookup]
  | cons p rest ih =>
    simp only [List.any_cons, Bool.or_eq_false_iff, beq_eq_false_iff_ne, ne_eq] at h
    simpa [alookup, h.1] using ih (by simpa using h.2)

theorem alookup_ainsert_self (l : List (String × PyVal)) (k : String) (v : PyVal) :
    alookup (ainsert l k v) k = some v := by
  unfold ainsert
  cases hb : l.any (fun p => p.1 == k) with
  | true => simpa [hb] using alookup_map_set_self k v l hb
  | false => simpa [hb] using alookup_append_single_self k v l hb

theorem alookup_map_set_ne (k : String) (v : PyVal) (q : String) (h : q ≠ k)
    (l : List (String × PyVal)) :
    alookup (l.map (fun p => if p.1 = k then (k, v) else p)) q = alookup l q := by
  induction l with
  | nil => rfl
  | cons p rest ih =>
    by_cases hp : p.1 = k
    · have h1 : ¬ k = q := fun hh => h hh.symm
      have h2 : ¬ p.1 = q := by rw [hp]; exact h1
      simp only [List.map_cons, if_pos hp, alookup, if_neg h1, if_neg h2, ih]
    · by_cases hq : p.1 = q
      · simp only [List.map_cons, if_neg hp, alookup, if_pos hq]
      · simp only [List.map_cons, if_neg hp, alookup, if_neg hq, ih]

theorem alookup_append_single_ne (k : String) (v : PyVal) (q : String) (h : q ≠ k)
    (l : List (String × PyVal)) :
    alookup (l ++ [(k, v)]) q = alookup l q := by
  induction l with
  | nil =>
    have h1 : ¬ k = q := fun hh => h hh.symm
    simp [alookup, h1]
  | cons p rest ih =>
    by_cases hq : p.1 = q
    · simp [alookup, hq]
    · simp [alookup, hq, ih]

theorem alookup_ainsert_ne (l : List (String × PyVal)) (k : String) (v : PyVal)
    (q : String) (h : q ≠ k) :
    alookup (ainsert l k v) q = alookup l q := by
  unfold ainsert
  cases hb : l.any (fun p => p.1 == k) with
  | true => simpa [hb] using alookup_map_set_ne k v q h l
  | false => simpa [hb] using alookup_append_single_ne k v q h l

theorem mem_keys_ainsert (l : List (String × PyVal)) (k : String) (v : PyVal)
    (q : String) (h : q ∈ (ainsert l k v).map Prod.fst) :
    q ∈ l.map Prod.fst ∨ q = k := by
  unfold ainsert at h
  by_cases hb : l.any (fun p => p.1 == k) = true
  · rw [if_pos hb] at h
    obtain ⟨x, hx, hq⟩ := List.mem_map.mp h
    obtain ⟨p0, hp0, rfl⟩ := List.mem_map.mp hx
    by_cases hpk : p0.1 = k
    · rw [if_pos hpk] at hq
      exact Or.inr hq.symm
    · rw [if_neg hpk] at hq
      exact Or.inl (List.mem_map.mpr ⟨p0, hp0, hq⟩)
  · rw [if_neg hb] at h
    rw [List.map_append, List.mem_append] at h
    rcases h with h | h
    · exact Or.inl h
    · right
      simpa using h

/- ---- Helper lemmas about Node attributes ---- -/

theorem getAttr_setAttr_self (n : Node) (k : String) (v : PyVal) :
    (n.setAttr k v).getAttr? k = some v :=
  alookup_ainsert_self n.attrs k v

theorem getAttr_setAttr_ne (n : Node) (k : String) (v : PyVal) (q : String)
    (h : q ≠ k) : (n.setAttr k v).getAttr? q = n.getAttr? q :=
  alookup_ainsert_ne n.attrs k v q h

theorem harvest_key_prop (n : Node) (k : String) (h : k ∈ n.harvest.map Prod.fst) :
    underscoreMarked k = false ∧ k ∉ n.ignores := by
  unfold Node.harvest at h
  obtain ⟨p, hp, rfl⟩ := List.mem_map.mp h
  have hf := (List.mem_filter.mp hp).2
  simpa [Bool.and_eq_true, Bool.not_eq_true'] using hf

theorem harvest_keys_sub (n : Node) (k : String) (h : k ∈ n.harvest.map Prod.fst) :
    k ∈ n.attrs.map Prod.fst := by
  unfold Node.harvest at h
  obtain ⟨p, hp, rfl⟩ := List.mem_map.mp h
  exact List.mem_map.mpr ⟨p, (List.mem_filter.mp hp).1, rfl⟩

/- ---- Claims about src/yota/nodes.py ---- -/

/-- Claim C7: `set_identifiers` derives `id` as `parent_name + "_" + name`,
`name` as the attribute name and `title` as the capitalized attribute
name, each only when the attribute was not already explicitly set;
explicitly supplied values are preserved. In particular a field named
`password` with parent `login` and no explicit values yields
id `login_password`, name `password`, title `Password`. -/
theorem node_set_identifiers_defaults (n : Node) (parent_name : String) :
    ((n.set_identifiers parent_name).getAttr? "id"
        = some ((n.getAttr? "id").getD (.str (parent_name ++ "_" ++ n.attrName))))
  ∧ ((n.set_identifiers parent_name).getAttr? "name"
        = some ((n.getAttr? "name").getD (.str n.attrName)))
  ∧ ((n.set_identifiers parent_name).getAttr? "title"
        = some ((n.getAttr? "title").getD (.str (pyCapitalize n.attrName))))
  ∧ ((Node.set_identifiers ⟨"password", [], ["template", "validator"], [], []⟩
        "login").getAttr? "id" = some (.str "login_password")
      ∧ (Node.set_identifiers ⟨"password", [], ["template", "validator"], [], []⟩
        "login").getAttr? "name" = some (.str "password")
      ∧ (Node.set_identifiers ⟨"password", [], ["template", "validator"], [], []⟩
        "login").getAttr? "title" = some (.str "Password")) := by
  have selffact : ∀ (m : Node) (k : String) (v : PyVal),
      ((if m.hasAttr k then m else m.setAttr k v).getAttr? k)
        = some ((m.getAttr? k).getD v) := by
    intro m k v
    rcases hx : alookup m.attrs k with _ | x
    · have hm : m.hasAttr k = false := by simp [Node.hasAttr, hx]
      rw [if_neg (by simp [hm]), getAttr_setAttr_self]
      have hx2 : m.getAttr? k = none := hx
      rw [hx2]
      rfl
    · have hm : m.hasAttr k = true := by simp [Node.hasAttr, hx]
      rw [if_pos (by simp [hm])]
      have hx2 : m.getAttr? k = some x := hx
      rw [hx2]
      rfl
  have keyfacts : ∀ (m : Node) (k : String) (v : PyVal) (q : String), q ≠ k →
      ((if m.hasAttr k then m else m.setAttr k v).getAttr? q) = m.getAttr? q := by
    intro m k v q hq
    by_cases hm : m.hasAttr k
    · rw [if_pos hm]
    · rw [if_neg hm, getAttr_setAttr_ne _ _ _ _ hq]
  refine ⟨?_, ?_, ?_, by decide, by decide, by decide⟩
  · simp only [Node.set_identifiers]
    rw [keyfacts _ "title" _ "id" (by decide), keyfacts _ "name" _ "id" (by decide),
      selffact]
  · simp only [Node.set_identifiers]
    rw [keyfacts _ "title" _ "name" (by decide), selffact,
      keyfacts _ "id" _ "name" (by decide)]
  · simp only [Node.set_identifiers]
    rw [selffact, keyfacts _ "name" _ "title" (by decide),
      keyfacts _ "id" _ "title" (by decide)]

/-- Claim C8: `resolve_data` sets the data attribute to `submission[name]`
when the field name is a key of the submission (whatever the value,
including empty), raises FormDataAccessException when it is absent, and
no exception other than FormDataAccessException ever escapes. -/
theorem node_resolve_data_spec (n : Node) (data : List (String × PyVal)) (nm : String)
    (hn : n.getAttr? "name" = some (.str nm)) :
    (∀ v, alookup data nm = some v → n.resolve_data data = .ok (n.setAttr "data" v))
  ∧ (alookup data nm = none → n.resolve_data data = .error .formDataAccess)
  ∧ (∀ e, n.resolve_data data = .error e → e = .formDataAccess) := by
  refine ⟨?_, ?_, ?_⟩
  · intro v hv
    simp [Node.resolve_data, hn, hv]
  · intro hv
    simp [Node.resolve_data, hn, hv]
  · intro e he
    simp only [Node.resolve_data, hn] at he
    rcases hv : alookup data nm with _ | v
    · rw [hv] at he
      simp at he
      exact he.symm
    · rw [hv] at he
      simp at he

/-- Witness for C8: the spec scenario — submission containing only
`username` against a field named `password` raises
FormDataAccessException. -/
theorem node_resolve_data_spec_witness :
    (Node.getAttr? ⟨"password", [("name", PyVal.str "password")], [], [], []⟩ "name"
        = some (PyVal.str "password"))
  ∧ Node.resolve_data ⟨"password", [("name", PyVal.str "password")], [], [], []⟩
        [("username", PyVal.str "bob")] = .error .formDataAccess := by
  refine ⟨by decide, ?_⟩
  exact (node_resolve_data_spec _ _ "password" (by decide)).2.1 (by decide)

/-- Claim C6 counterexample: the global context is injected under the key
`g` after the `_ignores` filter runs, so a field listing `g` in
`_ignores` still gets the key `g` in its returned context, contradicting
the claim that the result contains no key listed in `_ignores`. -/
theorem get_context_ignored_g_counterexample :
    Node.get_context ⟨"x", [], ["g"], [], []⟩ (PyVal.str "G")
        = .ok [("g", PyVal.str "G")]
  ∧ "g" ∈ (List.map Prod.fst [("g", PyVal.str "G")])
  ∧ "g" ∈ (Node.ignores ⟨"x", [], ["g"], [], []⟩) := by decide

/-- Claim C6 (amended): the context returned by `get_context` contains no
key starting with the underscore marker and no key listed in `_ignores`
other than the reserved key `g`; if a required key is missing from the
harvested mapping the call raises InvalidContextException naming the
first such key; otherwise every required key is present in the result
and the global context sits under `g`. -/
theorem get_context_amended (n : Node) (g_context : PyVal) :
    (∀ d, n.get_context g_context = .ok d →
        (∀ k ∈ d.map Prod.fst, underscoreMarked k = false ∧ (k ∈ n.ignores → k = "g"))
      ∧ (∀ r ∈ n.requires, (alookup d r).isSome = true)
      ∧ alookup d "g" = some g_context)
  ∧ (∀ r, n.requires.find? (fun r => (alookup n.harvest r).isNone) = some r →
        n.get_context g_context = .error (.invalidContext r)) := by
  constructor
  · intro d hd
    rcases hf : n.requires.find? (fun r => (alookup n.harvest r).isNone) with _ | r
    · simp only [Node.get_context, hf, Except.ok.injEq] at hd
      subst hd
      refine ⟨?_, ?_, alookup_ainsert_self _ _ _⟩
      · intro k hk
        rcases mem_keys_ainsert _ _ _ _ hk with hmem | rfl
        · obtain ⟨h1, h2⟩ := harvest_key_prop n k hmem
          exact ⟨h1, fun hki => absurd hki h2⟩
        · exact ⟨by decide, fun _ => rfl⟩
      · intro r hr
        have hnone := List.find?_eq_none.mp hf r hr
        by_cases hrg : r = "g"
        · subst hrg
          rw [alookup_ainsert_self]
          rfl
        · rw [alookup_ainsert_ne _ _ _ _ hrg]
          rcases hx : alookup n.harvest r with _ | x
          · exact absurd (by simp [hx]) hnone
          · rfl
    · simp [Node.get_context, hf] at hd
  · intro r hf
    simp [Node.get_context, hf]

/-- Witness for the amended C6 theorem at a concrete field with one
required key. -/
theorem get_context_amended_witness :
    (Node.get_context ⟨"t", [("title", PyVal.str "T")], [], ["title"], []⟩
        (PyVal.str "G") = .ok [("title", PyVal.str "T"), ("g", PyVal.str "G")])
  ∧ alookup [("title", PyVal.str "T"), ("g", PyVal.str "G")] "g"
        = some (PyVal.str "G") := by
  refine ⟨by decide, ?_⟩
  exact ((get_context_amended ⟨"t", [("title", PyVal.str "T")], [], ["title"], []⟩
      (PyVal.str "G")).1 [("title", PyVal.str "T"), ("g", PyVal.str "G")]
      (by decide)).2.2

/-- Claim C9: after `LeaderNode.set_identifiers` has run, the context
returned by `get_context` never contains the key `title`, even when a
title was explicitly supplied at construction. -/
theorem leader_node_title_suppressed (n : Node) (parent_name : String)
    (g_context : PyVal) (d : List (String × PyVal))
    (h : (LeaderNode.set_identifiers n parent_name).get_context g_context = .ok d) :
    "title" ∉ d.map Prod.fst := by
  intro hmem
  set m := LeaderNode.set_identifiers n parent_name with hm
  rcases hf : m.requires.find? (fun r => (alookup m.harvest r).isNone) with _ | r
  · simp only [Node.get_context, hf, Except.ok.injEq] at h
    subst h
    rcases mem_keys_ainsert _ _ _ _ hmem with hk | hk
    · have hsub := harvest_keys_sub m "title" hk
      obtain ⟨p, hp, hfst⟩ := List.mem_map.mp hsub
      have hpf : p ∈ (Node.set_identifiers n parent_name).attrs.filter
          (fun p => !(decide (p.1 = "title"))) := by
        simpa [hm, LeaderNode.set_identifiers, Node.delAttr] using hp
      have h2 := (List.mem_filter.mp hpf).2
      simp [hfst] at h2
    · exact absurd hk (by decide)
  · simp [Node.get_context, hf] at h

/-- Witness for C9: a leader field constructed with an explicit title
still renders a context without the key `title`. -/
theorem leader_node_title_suppressed_witness :
    ((LeaderNode.set_identifiers ⟨"s", [("title", PyVal.str "X")], [], [], []⟩
        "f").get_context PyVal.noneVal
      = .ok [("id", PyVal.str "f_s"), ("name", PyVal.str "s"), ("g", PyVal.noneVal)])
  ∧ "title" ∉ (List.map Prod.fst
      [("id", PyVal.str "f_s"), ("name", PyVal.str "s"), ("g", PyVal.noneVal)]) := by
  refine ⟨by decide, ?_⟩
  exact leader_node_title_suppressed ⟨"s", [("title", PyVal.str "X")], [], [], []⟩
    "f" PyVal.noneVal _ (by decide)

/-- Claim C2 exhibit: `errors` is a class-level list shared by every Node
instance that has no instance-level `errors` attribute, so `add_error`
on one fresh field also changes what every other fresh field reads as
its `errors`; the record does land at the end of the sequence the field
itself reads. -/
theorem add_error_shared_class_list :
    ((⟨1, none⟩ : ENode) ≠ (⟨2, none⟩ : ENode))
  ∧ (ENode.errors ⟨[[]]⟩ ⟨2, none⟩ = [])
  ∧ (ENode.errors (ENode.add_error ⟨[[]]⟩ ⟨1, none⟩ (PyVal.str "msg")) ⟨2, none⟩
        = [PyVal.str "msg"]) := by decide

/- ---- Helper lemmas about the binding wrappers ---- -/

theorem allVisited_nodes (visited : List String) :
    ∀ l : List Arg, (∀ a ∈ l, a.isNode = true) →
      allVisited l visited
        = .ok (l.all (fun a => a.names.any (fun s => decide (s ∈ visited)))) := by
  intro l
  induction l with
  | nil => intro _; rfl
  | cons a rest ih =>
    intro h
    have ha := h a (List.mem_cons_self a rest)
    have hrest : ∀ x ∈ rest, x.isNode = true :=
      fun x hx => h x (List.mem_cons_of_mem a hx)
    cases a with
    | name s => simp [Arg.isNode] at ha
    | node n =>
      cases hb : n.get_list_names.any (fun s => decide (s ∈ visited)) with
      | true => simp [allVisited, argVisited, hb, ih hrest, Arg.names]
      | false => simp [allVisited, argVisited, hb, Arg.names]

theorem check_gate_eq (w : ActionWrapper) (visited : List String)
    (hr : w.resolved = true)
    (ha : ∀ a ∈ w.args, a.isNode = true)
    (hk : ∀ p ∈ w.kwargs, p.2.isNode = true) :
    Check.node_visited w visited
      = .ok ((w.args.all (fun a => a.names.any (fun s => decide (s ∈ visited))))
          && ((w.kwargs.map Prod.snd).all
              (fun a => a.names.any (fun s => decide (s ∈ visited))))) := by
  have hmap : ∀ a ∈ w.kwargs.map Prod.snd, a.isNode = true := by
    intro a ha2
    obtain ⟨p, hp, rfl⟩ := List.mem_map.mp ha2
    exact hk p hp
  unfold Check.node_visited
  rw [if_pos hr, allVisited_nodes visited w.args ha,
    allVisited_nodes visited _ hmap]
  cases hb : w.args.all (fun a => a.names.any (fun s => decide (s ∈ visited))) with
  | false => rfl
  | true => rfl

theorem resolveArgs_ok_nodes (form : String → Except PyExc Node) :
    ∀ (l l2 : List Arg), resolveArgs form l = .ok l2 →
      ∀ a ∈ l2, a.isNode = true := by
  intro l
  induction l with
  | nil =>
    intro l2 h
    simp only [resolveArgs] at h
    have h2 := Except.ok.inj h
    subst h2
    intro a ha
    simp at ha
  | cons a rest ih =>
    intro l2 h
    simp only [resolveArgs] at h
    rcases hra : resolveArg form a with ⟨e⟩ | ⟨r⟩ <;> rw [hra] at h
    · simp at h
    · rcases hrs : resolveArgs form rest with ⟨e2⟩ | ⟨rs⟩ <;> rw [hrs] at h
      · simp at h
      · have h2 := Except.ok.inj h
        subst h2
        intro x hx
        rcases List.mem_cons.mp hx with rfl | hx2
        · cases a with
          | name s =>
            simp only [resolveArg] at hra
            rcases hfs : form s with ⟨e3⟩ | ⟨nn⟩ <;> rw [hfs] at hra
            · simp at hra
            · have h3 := Except.ok.inj hra
              rw [← h3]
              rfl
          | node n0 => simp [resolveArg] at hra
        · exact ih rs hrs x hx2

theorem resolveKwargs_ok_nodes (form : String → Except PyExc Node) :
    ∀ (l l2 : List (String × Arg)), resolveKwargs form l = .ok l2 →
      ∀ p ∈ l2, p.2.isNode = true := by
  intro l
  induction l with
  | nil =>
    intro l2 h
    simp only [resolveKwargs] at h
    have h2 := Except.ok.inj h
    subst h2
    intro p hp
    simp at hp
  | cons q rest ih =>
    intro l2 h
    simp only [resolveKwargs] at h
    rcases hra : resolveArg form q.2 with ⟨e⟩ | ⟨r⟩ <;> rw [hra] at h
    · simp at h
    · rcases hrs : resolveKwargs form rest with ⟨e2⟩ | ⟨rs⟩ <;> rw [hrs] at h
      · simp at h
      · have h2 := Except.ok.inj h
        subst h2
        intro p hp
        rcases List.mem_cons.mp hp with rfl | hp2
        · cases hq : q.2 with
          | name s =>
            rw [hq] at hra
            simp only [resolveArg] at hra
            rcases hfs : form s with ⟨e3⟩ | ⟨nn⟩ <;> rw [hfs] at hra
            · simp at hra
            · have h3 := Except.ok.inj hra
              rw [← h3]
              rfl
          | node n0 =>
            rw [hq] at hra
            simp [resolveArg] at hra
        · exact ih rs hrs p hp2

/- ---- Claims about src/yota/validators.py ---- -/

/-- Claim C3: for a resolved Check whose references all expose name
lists, `node_visited` returns ok with true exactly when every referenced
field, positional and keyword alike, has at least one exposed name in
the visited set. -/
theorem check_ready_iff (w : ActionWrapper) (visited : List String)
    (hr : w.resolved = true)
    (ha : ∀ a ∈ w.args, a.isNode = true)
    (hk : ∀ p ∈ w.kwargs, p.2.isNode = true) :
    ∃ b, Check.node_visited w visited = .ok b
      ∧ (b = true ↔ ((∀ a ∈ w.args, ∃ nm ∈ a.names, nm ∈ visited)
          ∧ (∀ p ∈ w.kwargs, ∃ nm ∈ p.2.names, nm ∈ visited))) := by
  refine ⟨_, check_gate_eq w visited hr ha hk, ?_⟩
  constructor
  · intro hb
    rw [Bool.and_eq_true] at hb
    constructor
    · intro a hA
      obtain ⟨nm, hnm, hmem⟩ := List.any_eq_true.mp ((List.all_eq_true.mp hb.1) a hA)
      exact ⟨nm, hnm, of_decide_eq_true hmem⟩
    · intro p hp
      have hmem2 : p.2 ∈ w.kwargs.map Prod.snd := List.mem_map.mpr ⟨p, hp, rfl⟩
      obtain ⟨nm, hnm, hmem⟩ :=
        List.any_eq_true.mp ((List.all_eq_true.mp hb.2) p.2 hmem2)
      exact ⟨nm, hnm, of_decide_eq_true hmem⟩
  · rintro ⟨h1, h2⟩
    rw [Bool.and_eq_true]
    constructor
    · apply List.all_eq_true.mpr
      intro a hA
      obtain ⟨nm, hnm, hmem⟩ := h1 a hA
      exact List.any_eq_true.mpr ⟨nm, hnm, decide_eq_true hmem⟩
    · apply List.all_eq_true.mpr
      intro a hA
      obtain ⟨p, hp, rfl⟩ := List.mem_map.mp hA
      obtain ⟨nm, hnm, hmem⟩ := h2 p hp
      exact List.any_eq_true.mpr ⟨nm, hnm, decide_eq_true hmem⟩

/-- Witness for C3 at a concrete resolved two-field Check with both
names visited. -/
theorem check_ready_iff_witness :
    Check.node_visited exCheckResolved ["a", "b"] = .ok true := by
  obtain ⟨b, hb, hiff⟩ :=
    check_ready_iff exCheckResolved ["a", "b"] rfl (by decide) (by decide)
  have hbt : b = true := hiff.mpr (by decide)
  rw [hbt] at hb
  exact hb

/-- Claim C10: the visitation gate is monotone in the visited set — the
gate is a pure query (the source performs no assignment in
`node_visited`, which the state-free embedding reflects), and enlarging
the visited set can only keep a ready binding ready. -/
theorem check_gate_monotone (w : ActionWrapper) (V W : List String)
    (hr : w.resolved = true)
    (ha : ∀ a ∈ w.args, a.isNode = true)
    (hk : ∀ p ∈ w.kwargs, p.2.isNode = true)
    (hsub : ∀ x ∈ V, x ∈ W)
    (hV : Check.node_visited w V = .ok true) :
    Check.node_visited w W = .ok true := by
  rw [check_gate_eq w V hr ha hk] at hV
  rw [check_gate_eq w W hr ha hk]
  have hV2 := Except.ok.inj hV
  rw [Bool.and_eq_true] at hV2
  have mono : ∀ l : List Arg,
      (l.all (fun a => a.names.any (fun s => decide (s ∈ V)))) = true →
      (l.all (fun a => a.names.any (fun s => decide (s ∈ W)))) = true := by
    intro l hl
    apply List.all_eq_true.mpr
    intro a hA
    obtain ⟨nm, hnm, hmem⟩ := List.any_eq_true.mp ((List.all_eq_true.mp hl) a hA)
    exact List.any_eq_true.mpr
      ⟨nm, hnm, decide_eq_true (hsub nm (of_decide_eq_true hmem))⟩
  rw [mono w.args hV2.1, mono _ hV2.2]
  rfl

/-- Witness for C10: a gate that is ready under the visited names a, b
stays ready when c is also visited. -/
theorem check_gate_monotone_witness :
    Check.node_visited exCheckResolved ["a", "b", "c"] = .ok true :=
  check_gate_monotone exCheckResolved ["a", "b"] ["a", "b", "c"] rfl
    (by decide) (by decide) (by decide) (by decide)

/-- Claim C4: once a binding is resolved, `resolve_attr_names` with the
same or any other registry returns immediately and changes nothing. -/
theorem resolve_attr_names_idempotent (w : ActionWrapper)
    (form : String → Except PyExc Node) (h : w.resolved = true) :
    w.resolve_attr_names form = .ok w := by
  unfold ActionWrapper.resolve_attr_names
  rw [if_pos h]

/-- Witness for C4: a resolved binding is untouched by a second
resolution against two different registries. -/
theorem resolve_attr_names_idempotent_witness :
    (ActionWrapper.resolve_attr_names ⟨exCallable, [Arg.node exNodeA], [], true⟩
        exForm = .ok ⟨exCallable, [Arg.node exNodeA], [], true⟩)
  ∧ (ActionWrapper.resolve_attr_names ⟨exCallable, [Arg.node exNodeA], [], true⟩
        (fun _ => .error .attributeError)
        = .ok ⟨exCallable, [Arg.node exNodeA], [], true⟩) :=
  ⟨resolve_attr_names_idempotent _ exForm rfl,
   resolve_attr_names_idempotent _ _ rfl⟩

/-- Claim C5: invoking or querying an unresolved binding raises the
InvariantViolation ValueError; after a successful resolution the binding
is resolved, every positional and keyword slot holds a field object
rather than a raw name string, and invocation calls straight through to
the wrapped callable on those resolved slots. -/
theorem binding_invoke_contract :
    (∀ w : ActionWrapper, w.resolved = false →
        w.call = .error (.valueError unresolvedMsg)
      ∧ (∀ visited, Check.node_visited w visited
          = .error (.valueError unresolvedMsg)))
  ∧ (∀ (w wr : ActionWrapper) (form : String → Except PyExc Node),
        w.resolve_attr_names form = .ok wr → w.resolved = false →
        wr.resolved = true
      ∧ (∀ a ∈ wr.args, a.isNode = true)
      ∧ (∀ p ∈ wr.kwargs, p.2.isNode = true)
      ∧ wr.call = runActionCallable wr.callable wr.args wr.kwargs) := by
  constructor
  · intro w hw
    constructor
    · unfold ActionWrapper.call
      rw [if_neg (by simp [hw])]
    · intro visited
      unfold Check.node_visited
      rw [if_neg (by simp [hw])]
  · intro w wr form hres hw
    unfold ActionWrapper.resolve_attr_names at hres
    rw [if_neg (by simp [hw])] at hres
    rcases hra : resolveArgs form w.args with ⟨e⟩ | ⟨args2⟩ <;> rw [hra] at hres
    · simp at hres
    · rcases hrk : resolveKwargs form w.kwargs with ⟨e⟩ | ⟨kw2⟩ <;> rw [hrk] at hres
      · simp at hres
      · have h2 := Except.ok.inj hres
        subst h2
        refine ⟨rfl, ?_, ?_, ?_⟩
        · intro a ha
          exact resolveArgs_ok_nodes form w.args args2 hra a ha
        · intro p hp
          exact resolveKwargs_ok_nodes form w.kwargs kw2 hrk p hp
        · unfold ActionWrapper.call
          rw [if_pos rfl]

/-- Witness for C5: an unresolved binding raises the InvariantViolation
on invocation; after resolving name a through a concrete registry the
positional slot holds the field object and the flag is set. -/
theorem binding_invoke_contract_witness :
    (ActionWrapper.call ⟨exCallable, [Arg.name "a"], [], false⟩
        = .error (.valueError unresolvedMsg))
  ∧ (ActionWrapper.resolve_attr_names ⟨exCallable, [Arg.name "a"], [], false⟩
        exForm = .ok ⟨exCallable, [Arg.node exNodeA], [], true⟩)
  ∧ ((⟨exCallable, [Arg.node exNodeA], [], true⟩ : ActionWrapper).resolved
        = true) := by
  have hres : ActionWrapper.resolve_attr_names ⟨exCallable, [Arg.name "a"], [], false⟩
      exForm = .ok ⟨exCallable, [Arg.node exNodeA], [], true⟩ := rfl
  exact ⟨(binding_invoke_contract.1 _ rfl).1, hres,
    (binding_invoke_contract.2 _ _ exForm hres rfl).1⟩

/-- Claim C1 counterexample: a TypeError raised inside the validator
body does not propagate unchanged — the except TypeError handler in
`__call__` cannot tell it from an invocation failure and wraps it as
NotCallableException. -/
theorem call_wraps_validator_typeerror :
    (ActionWrapper.call
        ⟨fun _ _ => CallOutcome.bodyRaise (PyExc.typeError "boom"), [], [], true⟩
      = .error (.notCallable "boom"))
  ∧ (ActionWrapper.call
        ⟨fun _ _ => CallOutcome.bodyRaise (PyExc.typeError "boom"), [], [], true⟩
      ≠ .error (.typeError "boom")) := by
  constructor
  · rfl
  · intro h
    exact absurd (Except.error.inj h) (by decide)

/-- Claim C1 (amended): for a resolved binding, a normal validator
return passes through, an exception other than TypeError raised by the
validator body propagates unchanged, and any TypeError escaping the call
— an invocation failure or a TypeError from the body — is re-raised as
NotCallableException carrying the original cause. -/
theorem call_exception_policy (w : ActionWrapper) (hr : w.resolved = true) :
    (∀ v, w.callable w.args w.kwargs = .ok v → w.call = .ok v)
  ∧ (∀ e, w.callable w.args w.kwargs = .bodyRaise e →
        (∀ m, e ≠ .typeError m) → w.call = .error e)
  ∧ (∀ m, w.callable w.args w.kwargs = .bodyRaise (.typeError m) →
        w.call = .error (.notCallable m))
  ∧ (∀ m, w.callable w.args w.kwargs = .invokeFail m →
        w.call = .error (.notCallable m)) := by
  have hcall : w.call = runActionCallable w.callable w.args w.kwargs := by
    unfold ActionWrapper.call
    rw [if_pos hr]
  refine ⟨?_, ?_, ?_, ?_⟩
  · intro v hv
    rw [hcall]
    unfold runActionCallable
    rw [hv]
  · intro e he hnt
    rw [hcall]
    unfold runActionCallable
    rw [he]
    cases e with
    | typeError m => exact absurd rfl (hnt m)
    | valueError m => rfl
    | attributeError => rfl
    | formDataAccess => rfl
    | invalidContext m => rfl
    | notCallable m => rfl
    | otherExc m => rfl
  · intro m hm
    rw [hcall]
    unfold runActionCallable
    rw [hm]
  · intro m hm
    rw [hcall]
    unfold runActionCallable
    rw [hm]

/-- Witness for the amended C1 theorem: a non-TypeError exception from
the validator body propagates unchanged. -/
theorem call_exception_policy_witness :
    ActionWrapper.call
        ⟨fun _ _ => CallOutcome.bodyRaise (PyExc.otherExc "oops"), [], [], true⟩
      = .error (.otherExc "oops") :=
  (call_exception_policy
      ⟨fun _ _ => CallOutcome.bodyRaise (PyExc.otherExc "oops"), [], [], true⟩ rfl).2.1
    (PyExc.otherExc "oops") rfl (fun _ h => PyExc.noConfusion h)
